import Mathlib

/-!
Shallow embedding of the sound-machine firmware (resync.py,
scripts/audio-player.py, scripts/rfid-reader.py, scripts/test_manifest.py)
and proofs about the claims of the specification.

File contents are modelled as plain values (`Bytes` for binary files,
`String` for text files); an MD5 hash is modelled as the content itself
(hash equality iff content equality).  Network requests are modelled by
`Option`-valued fields of a world record: `Option.none` stands for a raised
`requests` exception (or a missing header), `Option.some v` for a successful
response with payload `v`.  `json.loads` is modelled as an arbitrary function
`String → Option α` (`Option.none` = `JSONDecodeError`), so clients of the
model work for every possible parser.
-/

/-- Python `str.strip()`: drop whitespace from both ends. -/
def pyStrip (s : String) : String :=
  ⟨((s.data.dropWhile Char.isWhitespace).reverse.dropWhile
      Char.isWhitespace).reverse⟩

/-- Python `str.isdigit()`: nonempty and all characters decimal digits. -/
def pyIsDigit (s : String) : Bool := !s.isEmpty && s.data.all Char.isDigit

/-- The two content files of an item, `manifest.json` and `audio.mp3`. -/
inductive FileKind
  | manifest
  | audio
deriving DecidableEq, Repr

/-- Binary file contents. -/
abbrev Bytes := List Nat

/-- First-match association-list lookup (Python `dict`-like access used for
the in-memory caches, and for directory contents keyed by name). -/
def assocGet {β : Type} (fs : List (String × β)) (t : String) : Option β :=
  match fs.find? (fun e => e.1 == t) with
  | Option.some e => Option.some e.2
  | Option.none => Option.none

/-- Replace the entry with key `t` (or append it if absent). -/
def assocSet {β : Type} (fs : List (String × β)) (t : String) (v : β) :
    List (String × β) :=
  if fs.any (fun e => e.1 == t) then
    fs.map (fun e => if e.1 == t then (t, v) else e)
  else fs ++ [(t, v)]

/-! ## Remote catalog (`get_remote_sounds`, identical in resync.py and
audio-player.py) -/

/-- The remote store as seen by `get_remote_sounds`: `listing` is the set of
entry names extracted from the directory-listing page (`Option.none` = the
GET of the base URL raised), `probeBoth t` is the outcome of the two HEAD
probes for tag `t` (`Option.none` = a probe raised, `Option.some b` = both
probes answered, `b` = both returned status 200). -/
structure Catalog where
  listing : Option (List String)
  probeBoth : String → Option Bool

/-- `get_remote_sounds()` (resync.py lines 68-92, audio-player.py lines
62-86): digit-only entries from the listing whose two probes both return
status 200; the empty list on any network failure. -/
def get_remote_sounds (c : Catalog) : List String :=
  match c.listing with
  | Option.some entries =>
      entries.filter (fun t => pyIsDigit t && ((c.probeBoth t).getD false))
  | Option.none => []

/-! ## resync.py: hash-based change detection and atomic download -/

/-- One cached item directory on disk: the contents of `manifest.json` and
`audio.mp3` (`Option.none` = file absent). -/
structure LocalItem where
  manifest : Option Bytes
  audio : Option Bytes
deriving DecidableEq, Repr

/-- The local sounds directory: directory name to contents. -/
abbrev Fs := List (String × LocalItem)

/-- What the remote store serves for one tag in resync.py's model:
`Option.none` = the GET raised a `RequestException`. -/
structure RemoteItem where
  manifest : Option Bytes
  audio : Option Bytes

/-- Remote world for resync.py: the catalog plus per-tag served content
(also used for `get_remote_hash`, whose MD5 is modelled by the content
itself). -/
structure RemoteWorld where
  catalog : Catalog
  items : String → RemoteItem

/-- The hash comparison of resync.py (lines 160-176 and 266-287):
`needs_update` starts `True` and becomes `False` only when the file exists
and both the remote hash and the local hash were obtained and are equal. -/
def needsUpdateHash (localFile remoteFile : Option Bytes) : Bool :=
  match localFile, remoteFile with
  | Option.some lc, Option.some rc => !(rc == lc)
  | _, _ => true

/-- The manifest branch of resync.py's change check. -/
def resync_manifest_needs (localManifest remoteManifest : Option Bytes) : Bool :=
  needsUpdateHash localManifest remoteManifest

/-- The audio branch of resync.py's change check (the source repeats the
same hash comparison verbatim for the audio file). -/
def resync_audio_needs (localAudio remoteAudio : Option Bytes) : Bool :=
  needsUpdateHash localAudio remoteAudio

/-- Observable state of one final path and its `.tmp` sibling during
`download_file` (resync.py lines 94-148). -/
structure DlState where
  final : Option Bytes
  temp : Option Bytes
deriving DecidableEq, Repr

/-- How one call of `download_file` can go: the GET raises, the body stream
breaks after `got` bytes were written to the temp file, or the full body
`content` arrives. -/
inductive DlOutcome
  | reqError
  | partialBody (got : Bytes)
  | full (content : Bytes)
deriving DecidableEq, Repr

/-- `download_file(url, local_path)` (resync.py lines 94-148): the list of
successive observable states, the final state, and the returned Bool.
On any failure the `except` block removes the temp file; the final path is
only ever written by the `os.rename` after the non-zero-size check. -/
def download_file_trace (st : DlState) (o : DlOutcome) :
    List DlState × DlState × Bool :=
  match o with
  | DlOutcome.reqError =>
      let st1 : DlState := ⟨st.final, Option.none⟩
      ([st, st1], st1, false)
  | DlOutcome.partialBody got =>
      let st1 : DlState := ⟨st.final, Option.some got⟩
      let st2 : DlState := ⟨st.final, Option.none⟩
      ([st, st1, st2], st2, false)
  | DlOutcome.full content =>
      let st1 : DlState := ⟨st.final, Option.some content⟩
      if content == [] then
        let st2 : DlState := ⟨st.final, Option.none⟩
        ([st, st1, st2], st2, false)
      else
        let st2 : DlState := ⟨Option.some content, Option.none⟩
        ([st, st1, st2], st2, true)

/-- Net effect of `download_file` on the final path: the new content if the
download succeeded with a nonempty body, otherwise the previous content. -/
def download_file_result (remoteContent oldFinal : Option Bytes) :
    Option Bytes × Bool :=
  match remoteContent with
  | Option.some c => if c == [] then (oldFinal, false) else (Option.some c, true)
  | Option.none => (oldFinal, false)

/-- `download_sound_parallel(tag_id)` (resync.py lines 150-199): re-checks
both hashes, then downloads each needed file with `download_file`; returns
the resulting directory contents and the list of downloads performed. -/
def download_sound_parallel (w : RemoteWorld) (t : String) (item : LocalItem) :
    LocalItem × List FileKind :=
  let r := w.items t
  let needM := resync_manifest_needs item.manifest r.manifest
  let needA := resync_audio_needs item.audio r.audio
  let m2 := if needM then (download_file_result r.manifest item.manifest).1
            else item.manifest
  let a2 := if needA then (download_file_result r.audio item.audio).1
            else item.audio
  (⟨m2, a2⟩,
   (if needM then [FileKind.manifest] else []) ++
   (if needA then [FileKind.audio] else []))

/-- A directory counts as a valid local sound iff its name is digits-only
and both required files exist (resync.py lines 218-223, audio-player.py
lines 128-133). -/
def validDir (e : String × LocalItem) : Bool :=
  pyIsDigit e.1 && e.2.manifest.isSome && e.2.audio.isSome

/-- Result of one `sync_sounds` pass of resync.py. -/
structure SyncOutcome where
  deletions : List String
  downloads : List (String × FileKind)
  fsAfter : Fs
deriving DecidableEq, Repr

/-- The per-tag body of resync.py's download loop (lines 252-296): a new tag
is submitted directly; a known tag is submitted only when forced or when a
hash check reports a change; submission runs `download_sound_parallel`. -/
def resync_step (w : RemoteWorld) (localSounds : List String) (force : Bool)
    (acc : Fs × List (String × FileKind)) (t : String) :
    Fs × List (String × FileKind) :=
  let fsCur := acc.1
  let dls := acc.2
  let item := (assocGet fsCur t).getD ⟨Option.none, Option.none⟩
  if localSounds.contains t then
    let needM := force || resync_manifest_needs item.manifest (w.items t).manifest
    let needA := force || resync_audio_needs item.audio (w.items t).audio
    if needM || needA then
      let res := download_sound_parallel w t item
      (assocSet fsCur t res.1, dls ++ res.2.map (fun k => (t, k)))
    else (fsCur, dls)
  else
    let res := download_sound_parallel w t item
    (assocSet fsCur t res.1, dls ++ res.2.map (fun k => (t, k)))

/-- The `local_sounds` list of `sync_sounds` (resync.py lines 216-226):
names of the valid sound directories. -/
def resyncLocalSounds (fs : Fs) : List String :=
  (fs.filter validDir).map Prod.fst

/-- The deletion set of `sync_sounds` (resync.py lines 230-240): valid
local sounds no longer on the server (`rm -rf` per directory). -/
def resyncDeletions (remoteSounds : List String) (fs : Fs) : List String :=
  (resyncLocalSounds fs).filter (fun t => !(remoteSounds.contains t))

/-- The local directory after the deletion loop. -/
def resyncFsAfterDeletions (remoteSounds : List String) (fs : Fs) : Fs :=
  fs.filter (fun e => !((resyncDeletions remoteSounds fs).contains e.1))

/-- `sync_sounds(force_update)` of resync.py (lines 201-313): abort when the
remote list is empty; delete valid local dirs not on the server; then run
the download loop over the remote tags. -/
def resync_sync (w : RemoteWorld) (fs : Fs) (force : Bool) : SyncOutcome :=
  let remoteSounds := get_remote_sounds w.catalog
  if remoteSounds.isEmpty then ⟨[], [], fs⟩
  else
    let res := remoteSounds.foldl
      (resync_step w (resyncLocalSounds fs) force)
      (resyncFsAfterDeletions remoteSounds fs, [])
    ⟨resyncDeletions remoteSounds fs, res.2, res.1⟩

/-! ## audio-player.py: sync engine with mixed change detection -/

/-- One cached item directory as seen by audio-player.py: text contents of
the two files plus their modification times (`Option.none` = absent; the
time fields are meaningful only while the file exists). -/
structure ApLocalItem where
  manifest : Option String
  manifestTime : Option String
  audio : Option String
  audioTime : Option String
deriving DecidableEq, Repr

/-- Local sounds directory for audio-player.py. -/
abbrev ApFs := List (String × ApLocalItem)

/-- `get_local_timestamp` for the manifest file: `Option.none` when the file
is absent (audio-player.py lines 55-60). -/
def localManifestTime (it : ApLocalItem) : Option String :=
  match it.manifest with
  | Option.some _ => it.manifestTime
  | Option.none => Option.none

/-- `get_local_timestamp` for the audio file. -/
def localAudioTime (it : ApLocalItem) : Option String :=
  match it.audio with
  | Option.some _ => it.audioTime
  | Option.none => Option.none

/-- What the remote store serves for one tag in audio-player.py's model:
`manifestFetch`/`audioFetch` are GET bodies (`Option.none` = raised),
`audioHead` is the HEAD for the audio file (`Option.none` = raised,
`Option.some h` = answered with content-length header `h`), and the two
time fields are the `get_remote_timestamp` results. -/
structure ApRemoteItem where
  manifestFetch : Option String
  audioFetch : Option String
  audioHead : Option (Option Nat)
  manifestTime : Option String
  audioTime : Option String

/-- Remote world for audio-player.py; `parse` models `json.loads`
(`Option.none` = `JSONDecodeError`), `localListOk` models whether
`os.listdir` on the sounds directory succeeds. -/
structure ApWorld (α : Type) where
  catalog : Catalog
  items : String → ApRemoteItem
  parse : String → Option α
  localListOk : Bool

/-- The manifest change check of audio-player.py `sync_sounds`
(lines 188-236): content comparison of the stripped local and remote
manifest texts, as parsed JSON when both parse, as strings otherwise;
a raised remote GET falls back to comparing the two timestamps; a missing
local file counts as changed. -/
def ap_manifest_changed {α : Type} [DecidableEq α] (parse : String → Option α)
    (localContent remoteFetch localTime remoteTime : Option String) : Bool :=
  match localContent with
  | Option.none => true
  | Option.some lc =>
    match remoteFetch with
    | Option.none => remoteTime != localTime
    | Option.some rc =>
      match parse (pyStrip lc), parse (pyStrip rc) with
      | Option.some lj, Option.some rj => lj != rj
      | _, _ => pyStrip lc != pyStrip rc

/-- The audio change check of audio-player.py `sync_sounds`
(lines 238-254): local file size versus the remote content-length header
(missing header counts as 0); a raised HEAD falls back to comparing the two
timestamps; a missing local file counts as changed. -/
def ap_audio_changed (localSize : Option Nat) (audioHead : Option (Option Nat))
    (localTime remoteTime : Option String) : Bool :=
  match localSize with
  | Option.none => true
  | Option.some n =>
    match audioHead with
    | Option.none => remoteTime != localTime
    | Option.some hdr => n != hdr.getD 0

/-- Both change checks seen over the same interface: a file is a content
string plus a modification time.  Used to compare the two checks as
decision procedures on identical inputs. -/
structure FileData where
  content : String
  mtime : Option String
deriving DecidableEq, Repr

/-- The manifest check as a decision procedure on (local, remote) files. -/
def apManifestDetector {α : Type} [DecidableEq α] (parse : String → Option α)
    (l r : FileData) : Bool :=
  ap_manifest_changed parse (Option.some l.content) (Option.some r.content)
    l.mtime r.mtime

/-- The audio check as a decision procedure on (local, remote) files (the
code compares sizes, i.e. content lengths, and the HEAD reports the remote
length). -/
def apAudioDetector (l r : FileData) : Bool :=
  ap_audio_changed (Option.some l.content.length)
    (Option.some (Option.some r.content.length)) l.mtime r.mtime

/-- The audio half of `download_sound` (audio-player.py lines 361-398),
entered with the downloads already performed in `dls`: downloads the audio
when its remote timestamp differs or the file is absent; temp-file write,
non-zero-size check, rename; on failure the final path keeps its current
content and `None` is returned (`false`).  The written file's new local
modification time is an opaque fresh value. -/
def ap_download_sound_audio {α : Type} (w : ApWorld α) (t : String)
    (item : ApLocalItem) (dls : List FileKind) :
    ApLocalItem × List FileKind × Bool :=
  let r := w.items t
  let needA := (r.audioTime != localAudioTime item) || !item.audio.isSome
  if needA then
    match r.audioFetch with
    | Option.none => (item, dls ++ [FileKind.audio], false)
    | Option.some c =>
      if c == "" then (item, dls ++ [FileKind.audio], false)
      else
        let item2 : ApLocalItem :=
          { item with audio := Option.some c, audioTime := Option.some "written-now" }
        (item2, dls ++ [FileKind.audio],
         item2.manifest.isSome && item2.audio.isSome)
  else (item, dls, item.manifest.isSome && item.audio.isSome)

/-- `download_sound(tag_id)` (audio-player.py lines 296-422): manifest part
first (timestamp-or-absent test, temp write, non-zero check, rename), then
the audio part; any raised step abandons the call, removing temp files
only — files already renamed into place stay. -/
def ap_download_sound {α : Type} (w : ApWorld α) (t : String)
    (item : ApLocalItem) : ApLocalItem × List FileKind × Bool :=
  let r := w.items t
  let needM := (r.manifestTime != localManifestTime item) || !item.manifest.isSome
  if needM then
    match r.manifestFetch with
    | Option.none => (item, [FileKind.manifest], false)
    | Option.some c =>
      if c == "" then (item, [FileKind.manifest], false)
      else
        ap_download_sound_audio w t
          { item with manifest := Option.some c,
                      manifestTime := Option.some "written-now" }
          [FileKind.manifest]
  else ap_download_sound_audio w t item []

/-- A directory counts as a valid local sound for audio-player.py iff its
name is digits-only and both files exist. -/
def apValidDir (e : String × ApLocalItem) : Bool :=
  pyIsDigit e.1 && e.2.manifest.isSome && e.2.audio.isSome

/-- The state of an item directory after `sync_sounds` removed both files
(audio-player.py lines 266-273) and before `download_sound` refetches. -/
def clearedItem : ApLocalItem :=
  ⟨Option.none, Option.none, Option.none, Option.none⟩

/-- Result of one `sync_sounds` pass of audio-player.py; `readyWrites` is
the list of lines written on the READY pipe by the pass. -/
structure ApSyncOutcome where
  deletions : List String
  downloads : List (String × FileKind)
  fsAfter : ApFs
  readyWrites : List String
deriving DecidableEq, Repr

/-- The per-tag body of audio-player.py's download loop (lines 165-280):
a new tag goes straight to `download_sound`; a known tag runs the two
change checks (both forced under `force`), and when either reports a change
the existing manifest and audio files are REMOVED first (lines 266-273) and
`download_sound` is called on the emptied directory. -/
def ap_sync_step {α : Type} [DecidableEq α] (w : ApWorld α)
    (localSounds : List String) (force : Bool)
    (acc : ApFs × List (String × FileKind)) (t : String) :
    ApFs × List (String × FileKind) :=
  let fsCur := acc.1
  let dls := acc.2
  let item := (assocGet fsCur t).getD clearedItem
  if localSounds.contains t then
    let r := w.items t
    let mc := force || ap_manifest_changed w.parse item.manifest r.manifestFetch
      (localManifestTime item) r.manifestTime
    let ac := force || ap_audio_changed (item.audio.map String.length) r.audioHead
      (localAudioTime item) r.audioTime
    if mc || ac then
      let res := ap_download_sound w t clearedItem
      (assocSet fsCur t res.1, dls ++ res.2.1.map (fun k => (t, k)))
    else (fsCur, dls)
  else
    let res := ap_download_sound w t item
    (assocSet fsCur t res.1, dls ++ res.2.1.map (fun k => (t, k)))

/-- The `local_sounds` list of audio-player.py's `sync_sounds`
(lines 126-137). -/
def apLocalSounds (fs : ApFs) : List String :=
  (fs.filter apValidDir).map Prod.fst

/-- The deletion set of audio-player.py's `sync_sounds` (lines 144-153). -/
def apDeletions (remoteSounds : List String) (fs : ApFs) : List String :=
  (apLocalSounds fs).filter (fun t => !(remoteSounds.contains t))

/-- The local directory after audio-player.py's deletion loop. -/
def apFsAfterDeletions (remoteSounds : List String) (fs : ApFs) : ApFs :=
  fs.filter (fun e => !((apDeletions remoteSounds fs).contains e.1))

/-- `sync_sounds(force_update)` of audio-player.py (lines 104-294): abort
when the remote list is empty or the local listing fails (only progress
lines are sent, nothing on the READY pipe); otherwise delete stale valid
dirs, run the update loop, and finish with `signal_ready()`, which writes
exactly one READY line. -/
def ap_sync {α : Type} [DecidableEq α] (w : ApWorld α) (fs : ApFs)
    (force : Bool) : ApSyncOutcome :=
  let remoteSounds := get_remote_sounds w.catalog
  if remoteSounds.isEmpty then ⟨[], [], fs, []⟩
  else if !w.localListOk then ⟨[], [], fs, []⟩
  else
    let res := remoteSounds.foldl
      (ap_sync_step w (apLocalSounds fs) force)
      (apFsAfterDeletions remoteSounds fs, [])
    ⟨apDeletions remoteSounds fs, res.2, res.1, ["READY"]⟩

/-! ## audio-player.py: playback thread (`audio_player_thread`, lines
460-508)

The thread is modelled as a transition system.  `procs` records every
decoder process ever spawned, in spawn order, `true` while it is alive;
`current` is the `current_audio_process` handle (an index into `procs`,
kept even after the process died, exactly like the Python handle);
`ready` is the list of lines this thread writes on the READY pipe — the
source contains no such write in the playback path, so no step appends to
it.  Signals are modelled as immediately effective: `terminate` confirmed
by `wait(timeout=1)` and `kill` both leave the process dead, and the
`pkill mpg123` fallback kills every decoder. -/

/-- Outcome of the terminate-then-wait sequence on the current process:
the wait returned, or it timed out and the except branch ran `kill` plus
`pkill mpg123`. -/
inductive TermResult
  | exited
  | timeoutKill
deriving DecidableEq, Repr

/-- Outcome of spawning `mpg123`: the first `Popen` succeeded, the first
raised and the alternate succeeded, or both raised (then
`current_audio_process = None`). -/
inductive SpawnResult
  | ok
  | failThenOk
  | failBoth
deriving DecidableEq, Repr

/-- Events consumed by the playback thread: a job dequeued from
`audio_queue` (with the nondeterministic outcomes of its termination and
spawn steps), or a decoder exiting on its own. -/
inductive PEvent
  | job (t : TermResult) (s : SpawnResult)
  | naturalExit (i : Nat)
deriving DecidableEq, Repr

/-- Playback-thread state. -/
structure PSt where
  procs : List Bool
  current : Option Nat
  ready : List String
deriving DecidableEq, Repr

/-- The `if current_audio_process:` block (lines 470-481): graceful
terminate confirmed by `wait(timeout=1)`, or kill plus `pkill mpg123`
(which kills every decoder process). -/
def terminateCurrent (st : PSt) (t : TermResult) : PSt :=
  match st.current with
  | Option.none => st
  | Option.some i =>
    match t with
    | TermResult.exited => { st with procs := st.procs.set i false }
    | TermResult.timeoutKill =>
        { st with procs := (st.procs.set i false).map (fun _ => false) }

/-- The spawn block (lines 484-498): `Popen`, one alternate invocation on
failure, `current_audio_process = None` when both fail. -/
def spawnNew (st : PSt) (s : SpawnResult) : PSt :=
  match s with
  | SpawnResult.ok =>
      { st with procs := st.procs ++ [true], current := Option.some st.procs.length }
  | SpawnResult.failThenOk =>
      { st with procs := st.procs ++ [true], current := Option.some st.procs.length }
  | SpawnResult.failBoth => { st with current := Option.none }

/-- One loop iteration of `audio_player_thread`: a job first runs the
termination block on the previous process, then spawns; a natural exit just
marks the process dead (the stale handle stays, as in the source, which
never calls `poll`/`wait` after spawning). -/
def pstep (st : PSt) : PEvent → PSt
  | PEvent.job t s => spawnNew (terminateCurrent st t) s
  | PEvent.naturalExit i => { st with procs := st.procs.set i false }

/-- Run the playback thread from its initial state
(`current_audio_process = None`, no process spawned yet). -/
def prun (evs : List PEvent) : PSt :=
  evs.foldl pstep ⟨[], Option.none, []⟩

/-! ## audio-player.py: `play_sound` (lines 510-537) -/

/-- Everything one `play_sound(tag_id)` call does: the `download_sound`
invocations it makes, the paths it puts on `audio_queue`, the audio cache
afterwards, and the lines it writes on the READY pipe (the source writes
none there). -/
structure PlayOutcome where
  downloads : List String
  enqueued : List String
  cacheAfter : List (String × String)
  readyWrites : List String
deriving DecidableEq, Repr

/-- `play_sound(tag_id)`: strip the tag; cache hit enqueues the cached
path; a miss downloads only while the initial sync has not completed
(`downloadResult` is what `download_sound` returned in that case) and is
otherwise dropped; nothing is enqueued when the resolved path is absent
on disk. -/
def play_sound (cache : List (String × String)) (initialSyncCompleted : Bool)
    (downloadResult : Option String) (fileExists : String → Bool)
    (rawTag : String) : PlayOutcome :=
  let tagId := pyStrip rawTag
  match assocGet cache tagId with
  | Option.some p =>
      if fileExists p then ⟨[], [p], cache, []⟩ else ⟨[], [], cache, []⟩
  | Option.none =>
      if !initialSyncCompleted then
        match downloadResult with
        | Option.some p =>
            let cache2 := assocSet cache tagId p
            if fileExists p then ⟨[tagId], [p], cache2, []⟩
            else ⟨[tagId], [], cache2, []⟩
        | Option.none => ⟨[tagId], [], cache, []⟩
      else ⟨[], [], cache, []⟩

/-! ## audio-player.py: `build_audio_cache` (lines 424-440)

The source rebinds the module-level `audio_cache` to a fresh empty dict and
then inserts entries one at a time, so a concurrent reader of the global
(`play_sound` runs on another thread) can observe the empty dict or any
insertion step.  The model lists every observable value of the global. -/

/-- The sounds base directory constant of the source. -/
def SOUNDS_BASE_DIR : String := "/home/fcc-005/sound-machine-firmware/sounds"

/-- One entry of `os.listdir(SOUNDS_BASE_DIR)` as `build_audio_cache`
inspects it. -/
structure DiskEntry where
  name : String
  isDir : Bool
  hasAudio : Bool
deriving DecidableEq, Repr

/-- The inclusion test of `build_audio_cache`: a directory with a
digits-only name whose `audio.mp3` exists (the manifest is not checked
here). -/
def cacheQualifies (e : DiskEntry) : Bool :=
  e.isDir && pyIsDigit e.name && e.hasAudio

/-- The cache entry inserted for a qualifying directory. -/
def cacheEntryOf (e : DiskEntry) : String × String :=
  (e.name, SOUNDS_BASE_DIR ++ "/" ++ e.name ++ "/audio.mp3")

/-- The successive values of the global `audio_cache` produced by the
insertion loop, starting from `acc`. -/
def buildInserts : List DiskEntry → List (String × String) →
    List (List (String × String))
  | [], _ => []
  | e :: rest, acc =>
      if cacheQualifies e then
        let acc2 := acc ++ [cacheEntryOf e]
        acc2 :: buildInserts rest acc2
      else buildInserts rest acc

/-- Every value of the global `audio_cache` observable across one
`build_audio_cache()` call: the pre-call cache, then the freshly assigned
empty dict (line 427), then each insertion step. -/
def build_audio_cache_states (pre : List (String × String))
    (disk : List DiskEntry) : List (List (String × String)) :=
  pre :: [] :: buildInserts disk []

/-- The cache contents when `build_audio_cache` returns. -/
def build_audio_cache_final (disk : List DiskEntry) : List (String × String) :=
  (disk.filter cacheQualifies).map cacheEntryOf

/-! ## test_manifest.py: `get_color_from_manifest` (lines 5-43) -/

/-- Python values a parsed manifest can contain (floats are outside the
model; every conversion Python would raise on is `Option.none` below). -/
inductive PyVal
  | null
  | bool (b : Bool)
  | int (n : Int)
  | str (s : String)
  | list (xs : List PyVal)
  | dict (fields : List (String × PyVal))

/-- Python `int(x)` on a manifest color component: ints pass through,
booleans become 0/1, numeric strings parse; everything else raises. -/
def pyInt : PyVal → Option Int
  | PyVal.int n => Option.some n
  | PyVal.bool b => Option.some (if b then 1 else 0)
  | PyVal.str s => s.toInt?
  | _ => Option.none

/-- Key lookup in a parsed JSON object. -/
def pyDictGet (fields : List (String × PyVal)) (k : String) : Option PyVal :=
  match fields.find? (fun e => e.1 == k) with
  | Option.some e => Option.some e.2
  | Option.none => Option.none

/-- `get_color_from_manifest(tag_id, sounds_dir)`: reads
`<sounds_dir>/<stripped tag>/manifest.json` (`fileRead` = the file system,
`Option.none` = missing file), strips and parses it (`parse` models
`json.loads`), requires a dict with a `color` key holding a list of exactly
3 convertible values, clamps each into 0..255, and returns `None` in every
other case — the whole body sits in a `try` whose `except` returns `None`,
so a raise anywhere (bad JSON, non-dict value, non-list color, wrong
length, unconvertible component) yields `None`. -/
def get_color_from_manifest (parse : String → Option PyVal)
    (fileRead : String → Option String) (tag_id sounds_dir : String) :
    Option (List Int) :=
  match fileRead (sounds_dir ++ "/" ++ pyStrip tag_id ++ "/manifest.json") with
  | Option.none => Option.none
  | Option.some content =>
    match parse (pyStrip content) with
    | Option.none => Option.none
    | Option.some m =>
      match m with
      | PyVal.dict fields =>
        match pyDictGet fields "color" with
        | Option.none => Option.none
        | Option.some colorV =>
          match colorV with
          | PyVal.list [c0, c1, c2] =>
            match pyInt c0, pyInt c1, pyInt c2 with
            | Option.some r0, Option.some g0, Option.some b0 =>
                Option.some [max 0 (min 255 r0), max 0 (min 255 g0),
                             max 0 (min 255 b0)]
            | _, _, _ => Option.none
          | _ => Option.none
      | _ => Option.none

/-! ## rfid-reader.py: `read_device` (lines 84-147) -/

/-- A raw 24-byte input event after field extraction (lines 117-119). -/
structure InputEvent where
  etype : Nat
  code : Nat
  value : Nat
deriving DecidableEq, Repr

/-- The `key_mapping` table of the source (lines 96-100): key codes 2..11
to the digit characters, nothing else mapped. -/
def key_mapping (code : Nat) : Option Char :=
  match code with
  | 2 => Option.some '1'
  | 3 => Option.some '2'
  | 4 => Option.some '3'
  | 5 => Option.some '4'
  | 6 => Option.some '5'
  | 7 => Option.some '6'
  | 8 => Option.some '7'
  | 9 => Option.some '8'
  | 10 => Option.some '9'
  | 11 => Option.some '0'
  | _ => Option.none

/-- Python `re.match(r'^\d+$', s)` truthiness: one or more digits spanning
the whole string, where `$` also matches just before one final newline. -/
def pyFullMatchDigits (s : String) : Bool :=
  let cs := if s.data.getLast? == Option.some '\n' then s.data.dropLast
            else s.data
  !cs.isEmpty && cs.all Char.isDigit

/-- One loop iteration of `read_device` on state (key buffer, lines written
to the pipe): only key-down events (type 1, value 1) matter; Enter
(code 28) with a nonempty buffer writes `buffer + "\n"` when the buffer
matches `^\d+$` and discards it otherwise, always clearing the buffer;
a mapped key appends its digit to the buffer. -/
def readStep (st : String × List String) (ev : InputEvent) :
    String × List String :=
  if ev.etype == 1 && ev.value == 1 then
    if ev.code == 28 then
      if !st.1.isEmpty then
        if pyFullMatchDigits st.1 then ("", st.2 ++ [st.1 ++ "\n"])
        else ("", st.2)
      else st
    else
      match key_mapping ev.code with
      | Option.some c => (st.1.push c, st.2)
      | Option.none => st
  else st

/-- Run `read_device` from the initial empty buffer over an event stream;
returns (final buffer, all lines written to the pipe). -/
def readRun (evs : List InputEvent) : String × List String :=
  evs.foldl readStep ("", [])

/-! ## Predicates used by the theorems -/

/-- A well-formed scan line: a nonempty digits-only string plus one
trailing newline. -/
def goodLine (w : String) : Prop :=
  ∃ s : String, w = s ++ "\n" ∧ s.isEmpty = false ∧
    s.data.all Char.isDigit = true

/-- Playback-thread invariant: only the process held by
`current_audio_process` can be alive. -/
def OnlyCurrent (st : PSt) : Prop :=
  ∀ i : Nat, st.procs.getD i false = true → st.current = Option.some i

/-- The state a fully successful resync.py pass leaves behind, with the
remote unchanged since: every tag of the validated remote list has a local
directory whose manifest and audio contents equal what the remote serves
(so the MD5 hashes agree), and the remote fetches succeed. -/
def resyncSynced (w : RemoteWorld) (fs : Fs) : Prop :=
  ∀ t ∈ get_remote_sounds w.catalog, ∃ m a : Bytes,
    assocGet fs t = Option.some ⟨Option.some m, Option.some a⟩ ∧
    (w.items t).manifest = Option.some m ∧
    (w.items t).audio = Option.some a

/-- The state a fully successful audio-player.py pass leaves behind, with
the remote unchanged since: every tag of the validated remote list has a
local directory whose manifest text equals the served manifest text (up to
stripping) and whose audio size equals the content-length the remote HEAD
reports, and the remote requests succeed. -/
def apSynced {α : Type} (w : ApWorld α) (fs : ApFs) : Prop :=
  ∀ t ∈ get_remote_sounds w.catalog, ∃ it : ApLocalItem,
    assocGet fs t = Option.some it ∧
    (∃ lm rm : String, it.manifest = Option.some lm ∧
        (w.items t).manifestFetch = Option.some rm ∧ pyStrip lm = pyStrip rm) ∧
    (∃ la : String, it.audio = Option.some la ∧
        (w.items t).audioHead = Option.some (Option.some la.length))

/-! ## Concrete instances used by witnesses and counterexamples -/

/-- A remote world whose base-listing GET raises (network failure). -/
def rwEmptyC3 : RemoteWorld :=
  ⟨⟨Option.none, fun _ => Option.none⟩,
   fun _ => ⟨Option.none, Option.none⟩⟩

/-- An audio-player world whose base-listing GET raises. -/
def awEmptyC3 : ApWorld Unit :=
  ⟨⟨Option.none, fun _ => Option.none⟩,
   fun _ => ⟨Option.none, Option.none, Option.none, Option.none, Option.none⟩,
   fun _ => Option.none, true⟩

/-- A nonempty local cache for resync.py. -/
def fsC3 : Fs := [("1001", ⟨Option.some [1], Option.some [2]⟩)]

/-- A nonempty local cache for audio-player.py. -/
def afsC3 : ApFs :=
  [("1001", ⟨Option.some "m", Option.some "t", Option.some "a", Option.some "t"⟩)]

/-- A cached item with a good previous audio file, for the C1
counterexample. -/
def apItemC1 : ApLocalItem :=
  ⟨Option.some "m1", Option.some "lt", Option.some "aaa", Option.some "lt"⟩

/-- A world where tag 1001 is listed and probes fine, but every content
request raises, and the remote timestamps differ from the local ones (so
the change check reports a change via its timestamp fallback). -/
def apWorldC1 : ApWorld Unit :=
  ⟨⟨Option.some ["1001"], fun _ => Option.some true⟩,
   fun _ => ⟨Option.none, Option.none, Option.none,
             Option.some "rt", Option.some "rt"⟩,
   fun _ => Option.none, true⟩

/-- A synced remote world for resync.py: tag 1001 served with the same
contents the local cache holds. -/
def rwC7 : RemoteWorld :=
  ⟨⟨Option.some ["1001"], fun _ => Option.some true⟩,
   fun _ => ⟨Option.some [1, 2], Option.some [3, 4]⟩⟩

/-- The matching local cache for `rwC7`. -/
def fsC7 : Fs := [("1001", ⟨Option.some [1, 2], Option.some [3, 4]⟩)]

/-- A synced world for audio-player.py: manifest text and audio size agree
with the local cache. -/
def awC7 : ApWorld Unit :=
  ⟨⟨Option.some ["1001"], fun _ => Option.some true⟩,
   fun _ => ⟨Option.some "mm", Option.some "au", Option.some (Option.some 2),
             Option.some "rt", Option.some "rt"⟩,
   fun _ => Option.none, true⟩

/-- The matching local cache for `awC7` (audio "au" has length 2). -/
def afsC7 : ApFs :=
  [("1001", ⟨Option.some "mm", Option.some "rt", Option.some "au", Option.some "rt"⟩)]

/-- A pre-rebuild audio cache with one entry. -/
def preC8 : List (String × String) :=
  [("1001", SOUNDS_BASE_DIR ++ "/1001/audio.mp3")]

/-- A sounds directory with two qualifying entries. -/
def diskC8 : List DiskEntry := [⟨"1001", true, true⟩, ⟨"1002", true, true⟩]

/-- Key-down events for '1', '2', Enter. -/
def evsC10 : List InputEvent := [⟨1, 2, 1⟩, ⟨1, 3, 1⟩, ⟨1, 28, 1⟩]

/-! ## Helper lemmas -/

theorem foldl_fixed {β γ : Type} (f : β → γ → β) :
    ∀ (ts : List γ) (a : β), (∀ t ∈ ts, f a t = a) → ts.foldl f a = a := by
  intro ts
  induction ts with
  | nil => intro a _; rfl
  | cons t rest ih =>
    intro a h
    simp only [List.foldl_cons]
    rw [h t (by simp)]
    exact ih a (fun u hu => h u (by simp [hu]))

theorem assocGet_mem {β : Type} (fs : List (String × β)) (t : String) (v : β)
    (h : assocGet fs t = Option.some v) : (t, v) ∈ fs := by
  unfold assocGet at h
  cases hf : fs.find? (fun e => e.1 == t) with
  | none => rw [hf] at h; cases h
  | some e =>
    rw [hf] at h
    have hm := List.mem_of_find?_eq_some hf
    have hp := List.find?_some hf
    have h1 : e.1 = t := by simpa using hp
    have h2 : e.2 = v := by
      simpa using h
    have : e = (t, v) := by
      cases e
      simp_all
    rwa [this] at hm

theorem assocGet_filter {β : Type} (fs : List (String × β))
    (p : String × β → Bool) (t : String)
    (hp : ∀ e : String × β, e.1 = t → p e = true) :
    assocGet (fs.filter p) t = assocGet fs t := by
  induction fs with
  | nil => rfl
  | cons e rest ih =>
    by_cases he : p e = true
    · rw [List.filter_cons_of_pos he]
      unfold assocGet
      rw [List.find?_cons, List.find?_cons]
      cases hq : (e.1 == t) with
      | true => rfl
      | false => exact ih
    · have hne : (e.1 == t) = false := by
        cases hq : (e.1 == t) with
        | true => exact absurd (hp e (by simpa using hq)) he
        | false => rfl
      rw [List.filter_cons_of_neg he]
      unfold assocGet at ih ⊢
      rw [List.find?_cons, hne]
      exact ih

theorem listGetD_set_self : ∀ (l : List Bool) (k : Nat),
    (l.set k false).getD k false = false := by
  intro l
  induction l with
  | nil => intro k; rfl
  | cons a t ih =>
    intro k
    cases k with
    | zero => rfl
    | succ k2 => exact ih k2

theorem listGetD_set_ne : ∀ (l : List Bool) (k i : Nat), i ≠ k →
    (l.set k false).getD i false = l.getD i false := by
  intro l
  induction l with
  | nil => intro k i _; rfl
  | cons a t ih =>
    intro k i hne
    cases k with
    | zero =>
      cases i with
      | zero => exact absurd rfl hne
      | succ j => rfl
    | succ k2 =>
      cases i with
      | zero => rfl
      | succ j => exact ih k2 j (fun h => hne (by rw [h]))

theorem listGetD_map_false : ∀ (l : List Bool) (i : Nat),
    (l.map (fun _ => false)).getD i false = false := by
  intro l
  induction l with
  | nil => intro i; rfl
  | cons a t ih =>
    intro i
    cases i with
    | zero => rfl
    | succ j => exact ih j

theorem listGetD_append_true : ∀ (l : List Bool) (i : Nat),
    ((l ++ [true]).getD i false) = true →
    i = l.length ∨ l.getD i false = true := by
  intro l
  induction l with
  | nil =>
    intro i h
    cases i with
    | zero => exact Or.inl rfl
    | succ j => cases j <;> cases h
  | cons a t ih =>
    intro i h
    cases i with
    | zero => exact Or.inr h
    | succ j =>
      rcases ih j h with h1 | h2
      · exact Or.inl (by simp [h1])
      · exact Or.inr h2

theorem getLast?_cons_getD {α : Type} : ∀ (l : List α) (a d : α),
    ((a :: l).getLast?).getD d = (l.getLast?).getD a := by
  intro l
  induction l with
  | nil => intro a d; rfl
  | cons b t ih =>
    intro a d
    rw [List.getLast?_cons_cons, ih b d, ih b a]

/-! ## Claim C3 -/

/-- Claim C3 (confirmed): a reconciliation pass whose remote catalog
listing comes back empty — which is what every network failure produces —
performs no deletions and no downloads, leaves the local cache unchanged,
and aborts (this holds for both sync engines, resync.py and
audio-player.py). -/
theorem sync_pass_aborts_on_empty_remote :
    (∀ c : Catalog, c.listing = Option.none → get_remote_sounds c = []) ∧
    (∀ (w : RemoteWorld) (fs : Fs) (force : Bool),
      get_remote_sounds w.catalog = [] →
        resync_sync w fs force = ⟨[], [], fs⟩) ∧
    (∀ (α : Type) [DecidableEq α] (w : ApWorld α) (fs : ApFs) (force : Bool),
      get_remote_sounds w.catalog = [] →
        ap_sync w fs force = ⟨[], [], fs, []⟩) := by
  refine ⟨?_, ?_, ?_⟩
  · intro c h
    unfold get_remote_sounds
    rw [h]
  · intro w fs force h
    simp [resync_sync, h]
  · intro α _ w fs force h
    simp [ap_sync, h]

/-- Witness for `sync_pass_aborts_on_empty_remote` at a concrete world
whose base-listing GET raised, with a nonempty local cache. -/
theorem sync_pass_aborts_on_empty_remote_witness :
    resync_sync rwEmptyC3 fsC3 false = ⟨[], [], fsC3⟩ ∧
    ap_sync awEmptyC3 afsC3 false = ⟨[], [], afsC3, []⟩ :=
  ⟨sync_pass_aborts_on_empty_remote.2.1 rwEmptyC3 fsC3 false rfl,
   sync_pass_aborts_on_empty_remote.2.2 Unit awEmptyC3 afsC3 false rfl⟩

/-! ## Claim C5 -/

/-- Claim C5 (confirmed): once the initial sync has completed, a scan whose
(stripped) tag is not in the audio cache is dropped by `play_sound`: no
download, nothing enqueued, the cache unchanged, and nothing written on the
READY pipe. -/
theorem unknown_tag_after_initial_sync_dropped
    (cache : List (String × String)) (downloadResult : Option String)
    (fileExists : String → Bool) (rawTag : String)
    (h : assocGet cache (pyStrip rawTag) = Option.none) :
    play_sound cache true downloadResult fileExists rawTag =
      ⟨[], [], cache, []⟩ := by
  simp [play_sound, h]

/-- Witness for `unknown_tag_after_initial_sync_dropped`: tag 9999 against
a cache holding only 1001. -/
theorem unknown_tag_after_initial_sync_dropped_witness :
    assocGet [("1001", "/p")] (pyStrip "9999") = Option.none ∧
    play_sound [("1001", "/p")] true Option.none (fun _ => false) "9999" =
      ⟨[], [], [("1001", "/p")], []⟩ :=
  ⟨by decide,
   unknown_tag_after_initial_sync_dropped [("1001", "/p")] Option.none
     (fun _ => false) "9999" (by decide)⟩

/-! ## Claim C9 -/

/-- Claim C9 (confirmed): `get_color_from_manifest` is total and
well-formed — for every parser behaviour, file system and input it either
returns `None` or a list of exactly three integers, each clamped into
0..255; a raise anywhere inside is caught and becomes `None`. -/
theorem get_color_from_manifest_total_wellformed
    (parse : String → Option PyVal) (fileRead : String → Option String)
    (tag_id sounds_dir : String) :
    get_color_from_manifest parse fileRead tag_id sounds_dir = Option.none ∨
    ∃ r g b : Int,
      get_color_from_manifest parse fileRead tag_id sounds_dir =
        Option.some [r, g, b] ∧
      0 ≤ r ∧ r ≤ 255 ∧ 0 ≤ g ∧ g ≤ 255 ∧ 0 ≤ b ∧ b ≤ 255 := by
  unfold get_color_from_manifest
  repeat' split
  all_goals try exact Or.inl rfl
  exact Or.inr ⟨_, _, _, rfl,
    le_max_left 0 _, max_le (by norm_num) (min_le_left _ _),
    le_max_left 0 _, max_le (by norm_num) (min_le_left _ _),
    le_max_left 0 _, max_le (by norm_num) (min_le_left _ _)⟩

/-! ## Claim C6 -/

/-- Counterexample to claim C6: audio-player.py's two change checks are
not one canonical fingerprint strategy.  On the same pair of files —
local content "ab", remote content "ba", equal lengths, no timestamps —
the manifest check (content comparison) reports a change while the audio
check (byte-size comparison) reports none, so the two decision procedures
are different functions of the file data. -/
theorem ap_detectors_not_one_strategy :
    apManifestDetector (fun _ => (Option.none : Option Unit))
        ⟨"ab", Option.none⟩ ⟨"ba", Option.none⟩ = true ∧
    apAudioDetector ⟨"ab", Option.none⟩ ⟨"ba", Option.none⟩ = false := by
  constructor <;> decide

/-- Claim C6 (amended): resync.py applies one canonical strategy — the MD5
content hash — identically to manifest and audio (the two checks are the
same function), but audio-player.py's sync uses content comparison for the
manifest and byte-size comparison for the audio, and those two decision
procedures disagree on concrete inputs, so the program as a whole does not
use a single canonical fingerprint strategy. -/
theorem change_detection_strategies :
    (∀ localFile remoteFile : Option Bytes,
        resync_manifest_needs localFile remoteFile =
          resync_audio_needs localFile remoteFile) ∧
    apManifestDetector (fun _ => (Option.none : Option Unit))
        ⟨"ab", Option.none⟩ ⟨"ba", Option.none⟩ ≠
      apAudioDetector ⟨"ab", Option.none⟩ ⟨"ba", Option.none⟩ := by
  constructor
  · intro l r
    rfl
  · decide

/-! ## Claim C4 -/

theorem terminateCurrent_ready (st : PSt) (t : TermResult) :
    (terminateCurrent st t).ready = st.ready := by
  unfold terminateCurrent
  cases st.current <;> cases t <;> rfl

theorem pstep_ready (st : PSt) (e : PEvent) : (pstep st e).ready = st.ready := by
  cases e with
  | job t s =>
    show (spawnNew (terminateCurrent st t) s).ready = st.ready
    cases s <;> simp [spawnNew, terminateCurrent_ready]
  | naturalExit i => rfl

theorem prun_ready_aux : ∀ (evs : List PEvent) (st : PSt),
    (evs.foldl pstep st).ready = st.ready := by
  intro evs
  induction evs with
  | nil => intro st; rfl
  | cons e rest ih =>
    intro st
    simp only [List.foldl_cons]
    rw [ih (pstep st e), pstep_ready]

/-- Counterexample to claim C4: run the playback thread on one job whose
decoder is spawned fine and then exits naturally.  The transition back to
idle emits nothing on the READY pipe — there is no NaturalFinish event and
not "exactly one readiness event" (the playback code contains no READY-pipe
write at all; the only READY write in the program is `signal_ready` at the
end of a sync pass). -/
theorem natural_exit_emits_no_ready_event :
    (prun [PEvent.job TermResult.exited SpawnResult.ok,
           PEvent.naturalExit 0]).ready = [] ∧
    (prun [PEvent.job TermResult.exited SpawnResult.ok,
           PEvent.naturalExit 0]).ready.length ≠ 1 := by
  constructor <;> decide

/-- Claim C4 (amended): the playback thread emits no readiness event at
all — in particular a natural decoder exit emits nothing — and the only
READY-pipe write in the program is the single READY line of `signal_ready`
at the end of a completed `sync_sounds` pass (aborted passes write
nothing). -/
theorem ready_event_only_after_sync :
    (∀ evs : List PEvent, (prun evs).ready = []) ∧
    (∀ (α : Type) [DecidableEq α] (w : ApWorld α) (fs : ApFs) (force : Bool),
      (ap_sync w fs force).readyWrites =
        if (get_remote_sounds w.catalog).isEmpty then []
        else if !w.localListOk then [] else ["READY"]) := by
  constructor
  · intro evs
    exact prun_ready_aux evs ⟨[], Option.none, []⟩
  · intro α _ w fs force
    by_cases h1 : (get_remote_sounds w.catalog).isEmpty = true
    · simp [ap_sync, h1]
    · by_cases h2 : (!w.localListOk) = true
      · simp [ap_sync, h1, h2]
      · simp [ap_sync, h1, h2]

/-! ## Claim C8 -/

theorem buildInserts_mem : ∀ (l : List DiskEntry) (acc s : List (String × String)),
    s ∈ buildInserts l acc →
    ∃ n : Nat, s = acc ++ ((l.filter cacheQualifies).map cacheEntryOf).take n := by
  intro l
  induction l with
  | nil => intro acc s h; cases h
  | cons e rest ih =>
    intro acc s h
    by_cases hq : cacheQualifies e = true
    · rw [show buildInserts (e :: rest) acc =
          (acc ++ [cacheEntryOf e]) ::
            buildInserts rest (acc ++ [cacheEntryOf e]) by
        simp [buildInserts, hq]] at h
      rw [List.filter_cons_of_pos hq]
      rcases List.mem_cons.mp h with h1 | h2
      · exact ⟨1, by simp [h1]⟩
      · obtain ⟨n, hn⟩ := ih (acc ++ [cacheEntryOf e]) s h2
        exact ⟨n + 1, by simp [hn, List.append_assoc]⟩
    · rw [show buildInserts (e :: rest) acc = buildInserts rest acc by
        simp [buildInserts, hq]] at h
      rw [List.filter_cons_of_neg hq]
      exact ih acc s h

theorem buildInserts_getLast : ∀ (l : List DiskEntry) (acc : List (String × String)),
    ((buildInserts l acc).getLast?).getD acc =
      acc ++ (l.filter cacheQualifies).map cacheEntryOf := by
  intro l
  induction l with
  | nil => intro acc; simp [buildInserts]
  | cons e rest ih =>
    intro acc
    by_cases hq : cacheQualifies e = true
    · rw [show buildInserts (e :: rest) acc =
          (acc ++ [cacheEntryOf e]) ::
            buildInserts rest (acc ++ [cacheEntryOf e]) by
        simp [buildInserts, hq]]
      rw [getLast?_cons_getD, ih (acc ++ [cacheEntryOf e]),
          List.filter_cons_of_pos hq]
      simp
    · rw [show buildInserts (e :: rest) acc = buildInserts rest acc by
        simp [buildInserts, hq]]
      rw [ih acc, List.filter_cons_of_neg hq]

/-- Counterexample to claim C8: `build_audio_cache` does not atomically
swap the index.  It first rebinds the shared global to an empty dict and
then inserts entries one by one, so with a nonempty pre-rebuild cache and a
disk holding two qualifying items, a concurrent reader can observe the
empty mapping — a state that is neither the complete pre-rebuild mapping
nor the complete post-rebuild mapping. -/
theorem cache_rebuild_observable_partial :
    ([] : List (String × String)) ∈ build_audio_cache_states preC8 diskC8 ∧
    ([] : List (String × String)) ≠ preC8 ∧
    ([] : List (String × String)) ≠ build_audio_cache_final diskC8 := by
  refine ⟨by decide, by decide, by decide⟩

/-- Claim C8 (amended): `build_audio_cache` clears the shared index and
repopulates it entry by entry, so the observable values of the index during
a rebuild are exactly the pre-rebuild mapping and the successive takes
(partial states, starting from empty) of the post-rebuild mapping; when the
call finishes the index equals the complete post-rebuild mapping (every
digit-named directory with an audio file). -/
theorem cache_rebuild_states_characterization :
    (∀ (pre : List (String × String)) (disk : List DiskEntry)
        (s : List (String × String)),
      s ∈ build_audio_cache_states pre disk →
        s = pre ∨ ∃ n : Nat, s = (build_audio_cache_final disk).take n) ∧
    (∀ (pre : List (String × String)) (disk : List DiskEntry),
      ((build_audio_cache_states pre disk).getLast?).getD pre =
        build_audio_cache_final disk) := by
  constructor
  · intro pre disk s h
    rcases List.mem_cons.mp h with h1 | h2
    · exact Or.inl h1
    · rcases List.mem_cons.mp h2 with h3 | h4
      · exact Or.inr ⟨0, by simp [h3]⟩
      · obtain ⟨n, hn⟩ := buildInserts_mem disk [] s h4
        exact Or.inr ⟨n, by simpa using hn⟩
  · intro pre disk
    unfold build_audio_cache_states build_audio_cache_final
    rw [getLast?_cons_getD, getLast?_cons_getD]
    simpa using buildInserts_getLast disk []

/-- Witness for `cache_rebuild_states_characterization` at the concrete
pre-cache and disk of the counterexample, observing the empty state. -/
theorem cache_rebuild_states_characterization_witness :
    (([] : List (String × String)) = preC8 ∨
      ∃ n : Nat, ([] : List (String × String)) =
        (build_audio_cache_final diskC8).take n) ∧
    ((build_audio_cache_states preC8 diskC8).getLast?).getD preC8 =
      build_audio_cache_final diskC8 :=
  ⟨cache_rebuild_states_characterization.1 preC8 diskC8 [] (by decide),
   cache_rebuild_states_characterization.2 preC8 diskC8⟩

/-! ## Claim C1 -/

theorem ap_download_sound_audio_manifest {α : Type} (w : ApWorld α)
    (t : String) (item : ApLocalItem) (dls : List FileKind) :
    (ap_download_sound_audio w t item dls).1.manifest = item.manifest := by
  simp only [ap_download_sound_audio]
  split
  · split
    · rfl
    · split
      · rfl
      · rfl
  · rfl

theorem ap_download_sound_audio_audio {α : Type} (w : ApWorld α)
    (t : String) (item : ApLocalItem) (dls : List FileKind) :
    (ap_download_sound_audio w t item dls).1.audio = item.audio ∨
    ∃ c : String, (w.items t).audioFetch = Option.some c ∧ c ≠ "" ∧
      (ap_download_sound_audio w t item dls).1.audio = Option.some c := by
  simp only [ap_download_sound_audio]
  split
  · split
    · exact Or.inl rfl
    · rename_i c hc
      split
      · exact Or.inl rfl
      · rename_i hne
        refine Or.inr ⟨c, hc, ?_, rfl⟩
        intro habs
        rw [habs] at hne
        simp at hne
  · exact Or.inl rfl

/-- Counterexample to claim C1: in audio-player.py's `sync_sounds`, a
changed item's previous cached files are REMOVED before `download_sound`
runs, so when the refetch then fails the final paths end up holding
nothing — the file at the final path after the failed fetch is NOT what was
there before the fetch began, and the previous cached version is destroyed.
Concretely: tag 1001 has good cached files, the change check reports a
change (timestamp fallback), every content request raises, and the pass
leaves the 1001 directory with no manifest and no audio file. -/
theorem ap_sync_failed_update_destroys_previous :
    (ap_sync apWorldC1 [("1001", apItemC1)] false).fsAfter =
      [("1001", clearedItem)] ∧
    apItemC1.audio = Option.some "aaa" ∧
    clearedItem.audio = Option.none ∧
    clearedItem ≠ apItemC1 := by
  refine ⟨by decide, rfl, rfl, by decide⟩

/-- Claim C1 (amended): each individual file download is atomic in
isolation — `download_file` in resync.py removes its temp file and leaves
the final path exactly as it was at the start of the call whenever the
download, the non-zero-size verification or the rename fails, and at no
point does an empty or partial file sit at the final path (the final path
only ever holds its old content or the complete nonempty new content);
likewise each per-file block of audio-player.py's `download_sound` leaves
a file's final path either untouched or holding the complete nonempty new
content.  However, the update path of audio-player.py's `sync_sounds`
deletes the previous cached manifest and audio files before invoking
`download_sound`, so across a failed update the previous cached version is
not preserved (see the counterexample). -/
theorem download_file_atomic_per_call :
    (∀ (st : DlState) (o : DlOutcome),
      (download_file_trace st o).2.2 = false →
        (download_file_trace st o).2.1.final = st.final ∧
        (download_file_trace st o).2.1.temp = Option.none) ∧
    (∀ (st : DlState) (o : DlOutcome) (s : DlState),
      s ∈ (download_file_trace st o).1 →
        s.final = st.final ∨
        ∃ c : Bytes, o = DlOutcome.full c ∧ c ≠ [] ∧
          s.final = Option.some c) ∧
    (∀ (α : Type) (w : ApWorld α) (t : String) (item : ApLocalItem),
      ((ap_download_sound w t item).1.manifest = item.manifest ∨
        ∃ c : String, (w.items t).manifestFetch = Option.some c ∧ c ≠ "" ∧
          (ap_download_sound w t item).1.manifest = Option.some c) ∧
      ((ap_download_sound w t item).1.audio = item.audio ∨
        ∃ c : String, (w.items t).audioFetch = Option.some c ∧ c ≠ "" ∧
          (ap_download_sound w t item).1.audio = Option.some c)) := by
  refine ⟨?_, ?_, ?_⟩
  · intro st o h
    cases o with
    | reqError => exact ⟨rfl, rfl⟩
    | partialBody got => exact ⟨rfl, rfl⟩
    | full content =>
      by_cases hc : content = []
      · simp [download_file_trace, hc]
      · simp only [download_file_trace] at h
        rw [if_neg (by simpa using hc)] at h
        simp at h
  · intro st o s h
    cases o with
    | reqError =>
      simp only [download_file_trace, List.mem_cons, List.not_mem_nil,
        or_false] at h
      rcases h with h | h
      · exact Or.inl (by rw [h])
      · exact Or.inl (by rw [h])
    | partialBody got =>
      simp only [download_file_trace, List.mem_cons, List.not_mem_nil,
        or_false] at h
      rcases h with h | h | h
      · exact Or.inl (by rw [h])
      · exact Or.inl (by rw [h])
      · exact Or.inl (by rw [h])
    | full content =>
      by_cases hc : content = []
      · simp only [download_file_trace] at h
        rw [if_pos (by simpa using hc)] at h
        simp only [List.mem_cons, List.not_mem_nil, or_false] at h
        rcases h with h | h | h
        · exact Or.inl (by rw [h])
        · exact Or.inl (by rw [h])
        · exact Or.inl (by rw [h])
      · simp only [download_file_trace] at h
        rw [if_neg (by simpa using hc)] at h
        simp only [List.mem_cons, List.not_mem_nil, or_false] at h
        rcases h with h | h | h
        · exact Or.inl (by rw [h])
        · exact Or.inl (by rw [h])
        · exact Or.inr ⟨content, rfl, hc, by rw [h]⟩
  · intro α w t item
    constructor
    · simp only [ap_download_sound]
      split
      · split
        · exact Or.inl rfl
        · rename_i c hc
          split
          · exact Or.inl rfl
          · rename_i hne
            refine Or.inr ⟨c, hc, ?_, ?_⟩
            · intro habs
              rw [habs] at hne
              simp at hne
            · rw [ap_download_sound_audio_manifest]
      · exact Or.inl (by rw [ap_download_sound_audio_manifest])
    · simp only [ap_download_sound]
      split
      · split
        · exact Or.inl rfl
        · split
          · exact Or.inl rfl
          · exact ap_download_sound_audio_audio w t _ _
      · exact ap_download_sound_audio_audio w t _ _

/-- Witness for `download_file_atomic_per_call` at concrete inputs: a
request error against a cached 1-byte file, and an audio-player
`download_sound` whose requests all raise. -/
theorem download_file_atomic_per_call_witness :
    ((download_file_trace ⟨Option.some [7], Option.none⟩
        DlOutcome.reqError).2.1.final = Option.some [7] ∧
      (download_file_trace ⟨Option.some [7], Option.none⟩
        DlOutcome.reqError).2.1.temp = Option.none) ∧
    ((⟨Option.some [7], Option.none⟩ : DlState).final = Option.some [7] ∨
      ∃ c : Bytes, DlOutcome.reqError = DlOutcome.full c ∧ c ≠ [] ∧
        (⟨Option.some [7], Option.none⟩ : DlState).final = Option.some c) :=
  ⟨download_file_atomic_per_call.1 ⟨Option.some [7], Option.none⟩
      DlOutcome.reqError (by decide),
   download_file_atomic_per_call.2.1 ⟨Option.some [7], Option.none⟩
      DlOutcome.reqError ⟨Option.some [7], Option.none⟩ (by decide)⟩

/-! ## Claim C2 -/

theorem terminate_all_dead (st : PSt) (t : TermResult) (h : OnlyCurrent st) :
    ∀ i : Nat, (terminateCurrent st t).procs.getD i false = false := by
  intro i
  unfold terminateCurrent
  cases hc : st.current with
  | none =>
    show st.procs.getD i false = false
    cases hgd : st.procs.getD i false with
    | false => rfl
    | true => rw [h i hgd] at hc; cases hc
  | some k =>
    cases t with
    | exited =>
      show (st.procs.set k false).getD i false = false
      by_cases hik : i = k
      · rw [hik]
        exact listGetD_set_self st.procs k
      · rw [listGetD_set_ne st.procs k i hik]
        cases hgd : st.procs.getD i false with
        | false => rfl
        | true =>
          have h2 := h i hgd
          rw [hc] at h2
          exact absurd (Option.some.inj h2).symm hik
    | timeoutKill =>
      show ((st.procs.set k false).map (fun _ => false)).getD i false = false
      exact listGetD_map_false _ i

theorem OnlyCurrent_pstep (st : PSt) (e : PEvent) (h : OnlyCurrent st) :
    OnlyCurrent (pstep st e) := by
  cases e with
  | job t s =>
    show OnlyCurrent (spawnNew (terminateCurrent st t) s)
    have hdead := terminate_all_dead st t h
    cases s with
    | ok =>
      intro i hi
      have hi2 : ((terminateCurrent st t).procs ++ [true]).getD i false = true := hi
      rcases listGetD_append_true _ i hi2 with h1 | h2
      · show Option.some (terminateCurrent st t).procs.length = Option.some i
        rw [h1]
      · rw [hdead i] at h2
        cases h2
    | failThenOk =>
      intro i hi
      have hi2 : ((terminateCurrent st t).procs ++ [true]).getD i false = true := hi
      rcases listGetD_append_true _ i hi2 with h1 | h2
      · show Option.some (terminateCurrent st t).procs.length = Option.some i
        rw [h1]
      · rw [hdead i] at h2
        cases h2
    | failBoth =>
      intro i hi
      have hi2 : (terminateCurrent st t).procs.getD i false = true := hi
      rw [hdead i] at hi2
      cases hi2
  | naturalExit k =>
    intro i hi
    have hi2 : (st.procs.set k false).getD i false = true := hi
    show st.current = Option.some i
    by_cases hik : i = k
    · rw [hik] at hi2
      rw [listGetD_set_self st.procs k] at hi2
      cases hi2
    · rw [listGetD_set_ne st.procs k i hik] at hi2
      exact h i hi2

theorem OnlyCurrent_prun_aux : ∀ (evs : List PEvent) (st : PSt),
    OnlyCurrent st → OnlyCurrent (evs.foldl pstep st) := by
  intro evs
  induction evs with
  | nil => intro st h; exact h
  | cons e rest ih =>
    intro st h
    simp only [List.foldl_cons]
    exact ih (pstep st e) (OnlyCurrent_pstep st e h)

theorem OnlyCurrent_prun (evs : List PEvent) : OnlyCurrent (prun evs) := by
  apply OnlyCurrent_prun_aux
  intro i hi
  cases i <;> cases hi

/-- Claim C2 (confirmed): over every event sequence the playback thread
consumes, at most one decoder process is alive at any instant — any two
alive indices coincide.  The step function encodes the source's ordering:
a job first runs the termination block on the previous process (terminate
confirmed by `wait(timeout=1)`, or kill plus `pkill mpg123`, both modelled
as immediately effective) and only then spawns the next decoder, so only
the process held by `current_audio_process` can ever be alive. -/
theorem decoder_exclusivity (evs : List PEvent) (i j : Nat)
    (hi : (prun evs).procs.getD i false = true)
    (hj : (prun evs).procs.getD j false = true) : i = j := by
  have h := OnlyCurrent_prun evs
  have h1 := h i hi
  have h2 := h j hj
  rw [h1] at h2
  exact Option.some.inj h2

/-- Witness for `decoder_exclusivity`: after one successfully spawned job,
process 0 is alive, and the theorem applied at i = j = 0 gives 0 = 0. -/
theorem decoder_exclusivity_witness :
    (prun [PEvent.job TermResult.exited SpawnResult.ok]).procs.getD 0 false =
      true ∧ (0 : Nat) = 0 :=
  ⟨by decide,
   decoder_exclusivity [PEvent.job TermResult.exited SpawnResult.ok] 0 0
     (by decide) (by decide)⟩

/-! ## Claim C10 -/

theorem key_mapping_digit (c : Nat) (ch : Char)
    (h : key_mapping c = Option.some ch) : ch.isDigit = true := by
  unfold key_mapping at h
  split at h
  all_goals first
    | (simp only [Option.some.injEq] at h; subst h; decide)
    | cases h

theorem readStep_buffer (st : String × List String) (ev : InputEvent)
    (hb : st.1.data.all Char.isDigit = true) :
    (readStep st ev).1.data.all Char.isDigit = true := by
  unfold readStep
  split
  · split
    · split
      · split
        · exact (by decide : ("" : String).data.all Char.isDigit = true)
        · exact (by decide : ("" : String).data.all Char.isDigit = true)
      · exact hb
    · split
      · rename_i c hc
        rw [String.data_push]
        simp [List.all_append, hb, key_mapping_digit ev.code c hc]
      · exact hb
  · exact hb

theorem readStep_writes (st : String × List String) (ev : InputEvent)
    (hb : st.1.data.all Char.isDigit = true)
    (hw : ∀ w ∈ st.2, goodLine w) :
    ∀ w ∈ (readStep st ev).2, goodLine w := by
  unfold readStep
  split
  · split
    · split
      · rename_i hne
        split
        · intro w hmem
          rcases List.mem_append.mp hmem with h1 | h2
          · exact hw w h1
          · have hws : w = st.1 ++ "\n" := by simpa using h2
            exact ⟨st.1, hws, by simpa using hne, hb⟩
        · exact hw
      · exact hw
    · split
      · exact hw
      · exact hw
  · exact hw

theorem readRun_aux : ∀ (evs : List InputEvent) (buf : String)
    (ws : List String), buf.data.all Char.isDigit = true →
    (∀ w ∈ ws, goodLine w) →
    ∀ w ∈ (evs.foldl readStep (buf, ws)).2, goodLine w := by
  intro evs
  induction evs with
  | nil => intro buf ws _ hw; exact hw
  | cons ev rest ih =>
    intro buf ws hb hw
    simp only [List.foldl_cons]
    exact ih (readStep (buf, ws) ev).1 (readStep (buf, ws) ev).2
      (readStep_buffer (buf, ws) ev hb) (readStep_writes (buf, ws) ev hb hw)

/-- Claim C10 (confirmed): every line the scanner writes to the pipe is a
nonempty string of decimal digits followed by a single newline.  The key
mapping only ever appends digit characters to the buffer, and on Enter the
buffer is written only when it matches the digits-only pattern, being
discarded (never written) otherwise. -/
theorem scanner_pipe_lines_digits (evs : List InputEvent) (w : String)
    (hw : w ∈ (readRun evs).2) :
    ∃ s : String, w = s ++ "\n" ∧ s.isEmpty = false ∧
      s.data.all Char.isDigit = true := by
  exact readRun_aux evs "" [] (by decide) (by intro u hu; cases hu) w hw

/-- Witness for `scanner_pipe_lines_digits`: keys '1', '2', Enter produce
exactly the line "12\n". -/
theorem scanner_pipe_lines_digits_witness :
    "12\n" ∈ (readRun evsC10).2 ∧
    ∃ s : String, "12\n" = s ++ "\n" ∧ s.isEmpty = false ∧
      s.data.all Char.isDigit = true :=
  ⟨by decide, scanner_pipe_lines_digits evsC10 "12\n" (by decide)⟩

/-! ## Claim C7 -/

theorem get_remote_sounds_digit (c : Catalog) (t : String)
    (h : t ∈ get_remote_sounds c) : pyIsDigit t = true := by
  unfold get_remote_sounds at h
  cases hl : c.listing with
  | none => rw [hl] at h; cases h
  | some entries =>
    rw [hl] at h
    have h2 := (List.mem_filter.mp h).2
    simp at h2
    exact h2.1

theorem not_in_resync_deletions (remoteSounds : List String) (fs : Fs)
    (t : String) (hrt : remoteSounds.contains t = true) :
    ∀ e : String × LocalItem, e.1 = t →
      (!((resyncDeletions remoteSounds fs).contains e.1)) = true := by
  intro e he
  rw [he]
  cases hdel : (resyncDeletions remoteSounds fs).contains t with
  | false => rfl
  | true =>
    exfalso
    have hmem := List.elem_iff.mp hdel
    unfold resyncDeletions at hmem
    have h2 := (List.mem_filter.mp hmem).2
    rw [hrt] at h2
    cases h2

theorem resync_step_fixed (w : RemoteWorld) (fs : Fs)
    (remoteSounds : List String) (t : String)
    (dls : List (String × FileKind))
    (hd : pyIsDigit t = true) (hrt : remoteSounds.contains t = true)
    (m a : Bytes)
    (hget : assocGet fs t = Option.some ⟨Option.some m, Option.some a⟩)
    (hm : (w.items t).manifest = Option.some m)
    (ha : (w.items t).audio = Option.some a) :
    resync_step w (resyncLocalSounds fs) false
        (resyncFsAfterDeletions remoteSounds fs, dls) t =
      (resyncFsAfterDeletions remoteSounds fs, dls) := by
  have hget1 : assocGet (resyncFsAfterDeletions remoteSounds fs) t =
      Option.some ⟨Option.some m, Option.some a⟩ := by
    unfold resyncFsAfterDeletions
    rw [assocGet_filter fs _ t (not_in_resync_deletions remoteSounds fs t hrt)]
    exact hget
  have hloc : (resyncLocalSounds fs).contains t = true := by
    have hmemfs := assocGet_mem fs t _ hget
    have hval : validDir (t, ⟨Option.some m, Option.some a⟩) = true := by
      simp [validDir, hd]
    have hmemf := List.mem_filter.mpr ⟨hmemfs, hval⟩
    exact List.elem_iff.mpr
      (List.mem_map.mpr ⟨(t, ⟨Option.some m, Option.some a⟩), hmemf, rfl⟩)
  simp only [resync_step]
  rw [hget1]
  simp only [Option.getD_some]
  rw [hloc, hm, ha]
  simp [resync_manifest_needs, resync_audio_needs, needsUpdateHash]

/-- Part of claim C7: a second resync.py pass over a synced cache performs
zero downloads. -/
theorem resync_second_pass_zero (w : RemoteWorld) (fs : Fs)
    (hs : resyncSynced w fs) : (resync_sync w fs false).downloads = [] := by
  by_cases hre : (get_remote_sounds w.catalog).isEmpty = true
  · simp [resync_sync, hre]
  · have hfold := foldl_fixed (resync_step w (resyncLocalSounds fs) false)
      (get_remote_sounds w.catalog)
      (resyncFsAfterDeletions (get_remote_sounds w.catalog) fs, [])
      (fun t ht => by
        obtain ⟨m, a, hget, hm, ha⟩ := hs t ht
        exact resync_step_fixed w fs (get_remote_sounds w.catalog) t []
          (get_remote_sounds_digit w.catalog t ht)
          (List.elem_iff.mpr ht) m a hget hm ha)
    simp only [resync_sync]
    rw [if_neg hre, hfold]

theorem ap_manifest_changed_of_strip_eq {α : Type} [DecidableEq α]
    (parse : String → Option α) (lm rm : String) (lt rt : Option String)
    (h : pyStrip lm = pyStrip rm) :
    ap_manifest_changed parse (Option.some lm) (Option.some rm) lt rt =
      false := by
  show (match parse (pyStrip lm), parse (pyStrip rm) with
        | Option.some lj, Option.some rj => lj != rj
        | _, _ => pyStrip lm != pyStrip rm) = false
  rw [h]
  cases hp : parse (pyStrip rm) with
  | none => simp [hp]
  | some j => simp [hp]

theorem ap_audio_changed_same_size (n : Nat) (lt rt : Option String) :
    ap_audio_changed (Option.some n) (Option.some (Option.some n)) lt rt =
      false := by
  simp [ap_audio_changed]

theorem not_in_ap_deletions (remoteSounds : List String) (fs : ApFs)
    (t : String) (hrt : remoteSounds.contains t = true) :
    ∀ e : String × ApLocalItem, e.1 = t →
      (!((apDeletions remoteSounds fs).contains e.1)) = true := by
  intro e he
  rw [he]
  cases hdel : (apDeletions remoteSounds fs).contains t with
  | false => rfl
  | true =>
    exfalso
    have hmem := List.elem_iff.mp hdel
    unfold apDeletions at hmem
    have h2 := (List.mem_filter.mp hmem).2
    rw [hrt] at h2
    cases h2

theorem ap_sync_step_fixed {α : Type} [DecidableEq α] (w : ApWorld α)
    (fs : ApFs) (remoteSounds : List String) (t : String)
    (dls : List (String × FileKind))
    (hd : pyIsDigit t = true) (hrt : remoteSounds.contains t = true)
    (it : ApLocalItem) (hget : assocGet fs t = Option.some it)
    (lm rm : String) (hlm : it.manifest = Option.some lm)
    (hrm : (w.items t).manifestFetch = Option.some rm)
    (hstrip : pyStrip lm = pyStrip rm)
    (la : String) (hla : it.audio = Option.some la)
    (hhead : (w.items t).audioHead = Option.some (Option.some la.length)) :
    ap_sync_step w (apLocalSounds fs) false
        (apFsAfterDeletions remoteSounds fs, dls) t =
      (apFsAfterDeletions remoteSounds fs, dls) := by
  have hget1 : assocGet (apFsAfterDeletions remoteSounds fs) t =
      Option.some it := by
    unfold apFsAfterDeletions
    rw [assocGet_filter fs _ t (not_in_ap_deletions remoteSounds fs t hrt)]
    exact hget
  have hloc : (apLocalSounds fs).contains t = true := by
    have hmemfs := assocGet_mem fs t _ hget
    have hval : apValidDir (t, it) = true := by
      simp [apValidDir, hd, hlm, hla]
    have hmemf := List.mem_filter.mpr ⟨hmemfs, hval⟩
    exact List.elem_iff.mpr (List.mem_map.mpr ⟨(t, it), hmemf, rfl⟩)
  have hmc := ap_manifest_changed_of_strip_eq w.parse lm rm
    (localManifestTime it) ((w.items t).manifestTime) hstrip
  have hac := ap_audio_changed_same_size la.length (localAudioTime it)
    ((w.items t).audioTime)
  simp only [ap_sync_step, hget1, Option.getD_some, hloc, hlm, hrm, hla,
    hhead, Option.map_some', hmc, hac]
  simp

/-- Part of claim C7: a second audio-player.py pass over a synced cache
performs zero downloads. -/
theorem ap_second_pass_zero {α : Type} [DecidableEq α] (w : ApWorld α)
    (fs : ApFs) (hs : apSynced w fs) :
    (ap_sync w fs false).downloads = [] := by
  by_cases hre : (get_remote_sounds w.catalog).isEmpty = true
  · simp [ap_sync, hre]
  · by_cases hlo : (!w.localListOk) = true
    · simp [ap_sync, hre, hlo]
    · have hfold := foldl_fixed (ap_sync_step w (apLocalSounds fs) false)
        (get_remote_sounds w.catalog)
        (apFsAfterDeletions (get_remote_sounds w.catalog) fs, [])
        (fun t ht => by
          obtain ⟨it, hget, ⟨lm, rm, hlm, hrm, hstrip⟩, ⟨la, hla, hhead⟩⟩ :=
            hs t ht
          exact ap_sync_step_fixed w fs (get_remote_sounds w.catalog) t []
            (get_remote_sounds_digit w.catalog t ht)
            (List.elem_iff.mpr ht) it hget lm rm hlm hrm hstrip la hla hhead)
      simp only [ap_sync]
      rw [if_neg hre, if_neg hlo, hfold]

/-- Claim C7 (confirmed): reconciliation is idempotent with respect to
downloads — when a pass (without the force flag) runs over a cache that a
successful pass just left in agreement with an unchanged remote (every
remote tag cached with matching content/fingerprint, remote requests
succeeding), it performs zero downloads.  This holds for both sync engines:
resync.py (hash comparison) and audio-player.py (content and size
comparison). -/
theorem second_reconcile_zero_downloads :
    (∀ (w : RemoteWorld) (fs : Fs), resyncSynced w fs →
      (resync_sync w fs false).downloads = []) ∧
    (∀ (α : Type) [DecidableEq α] (w : ApWorld α) (fs : ApFs), apSynced w fs →
      (ap_sync w fs false).downloads = []) := by
  constructor
  · exact resync_second_pass_zero
  · intro α inst w fs hs
    exact @ap_second_pass_zero α inst w fs hs

/-- Witness for `second_reconcile_zero_downloads` at concrete synced
worlds: tag 1001 cached with exactly the content the remote serves. -/
theorem second_reconcile_zero_downloads_witness :
    resyncSynced rwC7 fsC7 ∧ (resync_sync rwC7 fsC7 false).downloads = [] ∧
    apSynced awC7 afsC7 ∧ (ap_sync awC7 afsC7 false).downloads = [] := by
  have h1 : resyncSynced rwC7 fsC7 := by
    intro t ht
    have ht2 : t = "1001" := by
      have := by simpa [rwC7, get_remote_sounds] using ht
      exact this.1
    subst ht2
    exact ⟨[1, 2], [3, 4], rfl, rfl, rfl⟩
  have h2 : apSynced awC7 afsC7 := by
    intro t ht
    have ht2 : t = "1001" := by
      have := by simpa [awC7, get_remote_sounds] using ht
      exact this.1
    subst ht2
    exact ⟨⟨Option.some "mm", Option.some "rt", Option.some "au",
            Option.some "rt"⟩, rfl, ⟨"mm", "mm", rfl, rfl, rfl⟩,
          ⟨"au", rfl, rfl⟩⟩
  exact ⟨h1, second_reconcile_zero_downloads.1 rwC7 fsC7 h1, h2,
    second_reconcile_zero_downloads.2 Unit awC7 afsC7 h2⟩
